import Mathlib

/-!
Verification of the `dbb_buffer_mngr` handoff pipeline.

This development is a shallow embedding of the two core modules,
`dbb_buffer_mngr/endpoint.py` (the Porter transfer engine, the Wiper
staging cleanup, and the `execute` process runner) and
`python/lsst/dbb/buffmngrs/handoff/manager.py` (the Manager's three
bookkeeping transactions), together with theorems about their behaviour.

External effects are modelled as explicit inputs:
* shell commands are strings built exactly as the Python code builds them,
  and the environment is an oracle `exec : String → Int` giving the exit
  status the process runner reports for each command;
* the persistent store is a list of `File` records; a commit either
  succeeds (the staged changes are applied) or fails (nothing is applied),
  which is passed in as a `commitOk : Bool` flag per chunk;
* checksum computation (`get_checksum`, a helper outside the embedded
  modules) is an oracle `cksum : String → String` from path to digest.
-/

namespace DbbBufferMngr

/-- `os.path.join a b` for POSIX paths, two arguments: an absolute second
component replaces the first, otherwise the components are joined with a
single `/` inserted unless `a` already ends with one. -/
def osPathJoin (a b : String) : String :=
  if a = "" then b
  else if b.data.head? = some '/' then b
  else if a.data.getLast? = some '/' then a ++ b
  else a ++ "/" ++ b

/-- `os.path.join a b c`. -/
def osPathJoin3 (a b c : String) : String :=
  osPathJoin (osPathJoin a b) c

/-- `errno.eremoteio` on Linux: status reported by `execute` for a command
that exits non-zero. -/
def eremoteio : Int := 121

/-- `errno.ETIME` on Linux: status reported by `execute` for a command that
exceeds its timeout. -/
def ETIME : Int := 62

/-- Observable behaviour of the child process spawned for one command:
its exit code, its wall-clock runtime in seconds, and the output it
produced on stdout and stderr up to the point it ended (or was killed). -/
structure ChildBehavior where
  exitCode : Int
  runtime : Nat
  stdout : String
  stderr : String
deriving DecidableEq, Repr

/-- The child process exceeds the deadline exactly when a timeout is set
and its runtime goes past it (`subprocess.run` raises `TimeoutExpired`). -/
def timedOut (child : ChildBehavior) (timeout : Option Nat) : Bool :=
  match timeout with
  | none => false
  | some t => t < child.runtime

/-- Embedding of `execute(cmd, timeout)` from `endpoint.py`.  The command
string itself only selects the child process; given the child's behaviour
the function returns the `(status, stdout, stderr)` triple the Python code
returns: `subprocess.run(..., check=True, timeout=...)` raises
`TimeoutExpired` on a timeout (mapped to `ETIME`), raises
`CalledProcessError` on a non-zero exit (mapped to `eremoteio`), and
otherwise yields the process's own return code, namely 0. -/
def execute (child : ChildBehavior) (timeout : Option Nat) :
    Int × String × String :=
  if timedOut child timeout then
    (ETIME, child.stdout, child.stderr)
  else if child.exitCode ≠ 0 then
    (eremoteio, child.stdout, child.stderr)
  else
    (child.exitCode, child.stdout, child.stderr)

/-- `Location = collections.namedtuple("Location", ["head", "tail"])`. -/
structure Location where
  head : String
  tail : String
deriving DecidableEq, Repr

/-- A `(topdir, subdir, file)` triple pulled from the Porter's `todo`
queue (a transfer request) and, equally, pushed to its `done` queue. -/
structure FileReq where
  topdir : String
  subdir : String
  file : String
deriving DecidableEq, Repr

/-- The location group key of a request. -/
def locOf (r : FileReq) : Location :=
  ⟨r.topdir, r.subdir⟩

/-- State of a constructed `Porter`: destination identity `dest`
(user, host, buffer root), staging root `temp`, chunk size and timeout. -/
structure Porter where
  user : String
  host : String
  root : String
  temp : String
  size : Nat
  time : Option Nat
deriving Repr

/-- One step of building the Porter's grouping `dict`:
`mapping.setdefault(loc, []).append(file)` appends `f` to the entry whose
key equals `loc`, or adds a new entry at the end (Python dicts preserve
insertion order). -/
def addToGroups (gs : List (Location × List String)) (loc : Location)
    (f : String) : List (Location × List String) :=
  match gs with
  | [] => [(loc, [f])]
  | (l, fs) :: rest =>
      if l = loc then (l, fs ++ [f]) :: rest
      else (l, fs) :: addToGroups rest loc f

/-- The grouping loop of `Porter.run`: fold the chunk into an
insertion-ordered association list keyed by `(topdir, subdir)`. -/
def groupChunk (chunk : List FileReq) : List (Location × List String) :=
  chunk.foldl (fun gs r => addToGroups gs (locOf r) r.file) []

/-- The remote directory-creation command for one location group. -/
def mkdirCmd (P : Porter) (loc : Location) : String :=
  "ssh " ++ P.user ++ "@" ++ P.host ++ " mkdir -p "
    ++ osPathJoin P.root loc.tail ++ " " ++ osPathJoin P.temp loc.tail

/-- The batched copy command for one location group. -/
def scpCmd (P : Porter) (loc : Location) (files : List String) : String :=
  "scp -BCpq "
    ++ String.intercalate " "
        (files.map (fun fn => osPathJoin (osPathJoin loc.head loc.tail) fn))
    ++ " " ++ P.user ++ "@" ++ P.host ++ ":" ++ osPathJoin P.temp loc.tail

/-- The per-file publish (move) command. -/
def mvCmd (P : Porter) (loc : Location) (fn : String) : String :=
  "ssh " ++ P.user ++ "@" ++ P.host ++ " mv "
    ++ osPathJoin (osPathJoin P.temp loc.tail) fn ++ " "
    ++ osPathJoin (osPathJoin P.root loc.tail) fn

/-- Processing of one location group in `Porter.run`, returning the
commands issued (in order) and the requests put on the `done` queue.
A non-zero status from the directory creation or from the batched copy
abandons the group (`continue`); a non-zero status from an individual
move skips only that file. -/
def processGroup (exec : String → Int) (P : Porter) (loc : Location)
    (files : List String) : List String × List FileReq :=
  let mk := mkdirCmd P loc
  if exec mk ≠ 0 then ([mk], [])
  else
    let cp := scpCmd P loc files
    if exec cp ≠ 0 then ([mk, cp], [])
    else
      ([mk, cp] ++ files.map (mvCmd P loc),
       files.filterMap (fun fn =>
         if exec (mvCmd P loc fn) = 0 then
           some ⟨loc.head, loc.tail, fn⟩
         else none))

/-- One iteration of the transfer loop over a pulled chunk: group the
chunk, then process every group in the order groups were first seen,
accumulating issued commands and completed requests. -/
def porterChunk (exec : String → Int) (P : Porter) (chunk : List FileReq) :
    List String × List FileReq :=
  (groupChunk chunk).foldl
    (fun acc g =>
      let r := processGroup exec P g.1 g.2
      (acc.1 ++ r.1, acc.2 ++ r.2))
    ([], [])

/-- `Porter.run`: while the `todo` queue is non-empty, pull up to `size`
requests and process the chunk.  The queue is modelled as the list of
requests it will yield, in order.  (For `size = 0` the Python loop would
pull empty chunks forever; the model always makes progress and is only
used with `size ≥ 1`.) -/
def porterRun (exec : String → Int) (P : Porter) :
    List FileReq → List String × List FileReq
  | [] => ([], [])
  | r :: rest =>
      let chunk := r :: rest.take (P.size - 1)
      let c := porterChunk exec P chunk
      let c' := porterRun exec P (rest.drop (P.size - 1))
      (c.1 ++ c'.1, c.2 ++ c'.2)
termination_by todo => todo.length
decreasing_by
  simp only [List.length_cons, List.length_drop]
  omega

/-- State of a constructed `Wiper`: destination identity and timeout;
`Wiper(config)` with no timeout argument leaves the Python default
`timeout=None` in place. -/
structure Wiper where
  user : String
  host : String
  path : String
  time : Option Nat
deriving Repr

/-- `Wiper.__init__(config, timeout=None)`. -/
def wiperInit (user host staging : String)
    (timeout : Option Nat := none) : Wiper :=
  ⟨user, host, staging, timeout⟩

/-- The single call `Wiper.run` makes to `execute`: the staging-sweep
command string together with the timeout it passes (`self.time`). -/
def wiperRunCall (w : Wiper) : String × Option Nat :=
  ("ssh " ++ w.user ++ "@" ++ w.host ++ " find " ++ w.path
     ++ " -type d -empty -mindepth 1 -delete",
   w.time)

/-! ## manager.py embedding

The persistent store is modelled as the list of committed `File` rows, in
insertion order; `query(...).first()` returns the first matching row and
`query(...).all()` every matching row, in that order.  Each bookkeeping
transaction stages its changes against the committed store, then commits:
on success the staged changes are applied and the chunk's downstream
items are forwarded, on failure nothing is applied or forwarded.  The
commit outcome is environmental and passed in as `commitOk`. -/

/-- A persistent `File` row
(`File(relpath, filename, checksum, size_bytes, created_on, held_on)`).
Timestamps are kept as the integer second counts the code converts with
`datetime.fromtimestamp`; `held_on` is null until the file is confirmed
moved to the holding area. -/
structure FileRec where
  relpath : String
  filename : String
  checksum : String
  size_bytes : Int
  created_on : Int
  held_on : Option Int
deriving DecidableEq, Repr

/-- The de-duplication key of a `File` row. -/
def recKey (f : FileRec) : String × String × String :=
  (f.relpath, f.filename, f.checksum)

/-- A file message as used by `_add_files` and `_update_files`:
fields `head`, `tail`, `name`, `size`, `timestamp`. -/
structure FileItem where
  head : String
  tail : String
  name : String
  size : Int
  timestamp : Int
deriving DecidableEq, Repr

/-- The de-duplication key `_add_files` computes for an incoming item:
its `tail` and `name` plus the checksum of its full path. -/
def itemKey (cksum : String → String) (item : FileItem) :
    String × String × String :=
  (item.tail, item.name, cksum (osPathJoin3 item.head item.tail item.name))

/-- The membership test `_add_files` performs:
`query(File).filter(relpath == tail, filename == name, checksum == cksm)`
is non-empty in the committed store. -/
def fileExists (cksum : String → String) (store : List FileRec)
    (item : FileItem) : Bool :=
  (store.find? (fun f => decide (recKey f = itemKey cksum item))).isSome

/-- The new `File` row `_add_files` builds for an item that is not yet
recorded. -/
def mkFileRec (cksum : String → String) (item : FileItem) : FileRec :=
  { relpath := item.tail
    filename := item.name
    checksum := cksum (osPathJoin3 item.head item.tail item.name)
    size_bytes := item.size
    created_on := item.timestamp
    held_on := none }

/-- The staging loop of `_add_files` over one chunk: items whose key is
already recorded are skipped, the rest become new rows, in chunk order.
The query sees only the committed store — rows staged earlier in the same
chunk are not yet in the session when later items are checked. -/
def stageFiles (cksum : String → String) (store : List FileRec)
    (items : List FileItem) : List FileRec :=
  items.foldl
    (fun acc item =>
      if fileExists cksum store item then acc
      else acc ++ [mkFileRec cksum item])
    []

/-- One chunk of `Manager._add_files`: stage the chunk's new rows, then
commit.  Returns the committed store and the items put on the output
queue: on commit success the store grows by the staged rows and every
chunk item is forwarded; on failure the store is unchanged and nothing is
forwarded. -/
def addFilesChunk (cksum : String → String) (store : List FileRec)
    (commitOk : Bool) (items : List FileItem) :
    List FileRec × List FileItem :=
  let files := stageFiles cksum store items
  if commitOk then (store ++ files, items) else (store, [])

/-- A transfer outcome message as consumed by `_add_transfers`.  The
fields are those of the `TransferOutcome` message (spec §3); the code
reads `pre_start`, `pre_duration`, `size`, `rate`, `status`, `error` and
`files`, while `trans_start`, `trans_duration`, `post_start` and
`post_duration` are carried by the message but — as proved below — never
read when the batch row is built. -/
structure TransferItem where
  pre_start : Int
  pre_duration : Int
  trans_start : Int
  trans_duration : Int
  post_start : Int
  post_duration : Int
  size : Int
  rate : Int
  status : Int
  error : String
  files : List (String × String × String)
deriving DecidableEq, Repr

/-- A persistent `Batch` row, with its many-to-many `files` link kept as
the list of linked `File` rows. -/
structure BatchRec where
  pre_start_time : Int
  pre_duration : Int
  trans_start_time : Int
  trans_duration : Int
  post_start_time : Int
  post_duration : Int
  size_bytes : Int
  rate_mbytes_per_sec : Int
  status : Int
  err_msg : String
  files : List FileRec
deriving DecidableEq, Repr

/-- The record lookup `_add_transfers` performs for one outcome:
`query(File).filter(tuple_(relpath, filename).in_([(p, n) for _, p, n in
item.files])).all()`. -/
def queryRecords (store : List FileRec) (item : TransferItem) :
    List FileRec :=
  store.filter (fun f =>
    (item.files.map (fun t => (t.2.1, t.2.2))).contains
      (f.relpath, f.filename))

/-- The `Batch` row `_add_transfers` builds for one outcome, exactly as
the code populates it: note that `trans_start_time`, `trans_duration`,
`post_start_time` and `post_duration` are all filled from the outcome's
`pre_start` / `pre_duration` fields. -/
def mkBatch (item : TransferItem) (records : List FileRec) : BatchRec :=
  { pre_start_time := item.pre_start
    pre_duration := item.pre_duration
    trans_start_time := item.pre_start
    trans_duration := item.pre_duration
    post_start_time := item.pre_start
    post_duration := item.pre_duration
    size_bytes := item.size
    rate_mbytes_per_sec := item.rate
    status := item.status
    err_msg := item.error
    files := records }

/-- A `FileMsg(head=..., tail=..., name=...)` message put on the
processed queue for a successfully transferred file. -/
structure FileMsg where
  head : String
  tail : String
  name : String
deriving DecidableEq, Repr

/-- The messages `_add_transfers` creates for one outcome's files. -/
def msgsOf (item : TransferItem) : List FileMsg :=
  item.files.map (fun t => ⟨t.1, t.2.1, t.2.2⟩)

/-- The staging loop of `_add_transfers` over one chunk: for each outcome
look up its matching rows; an outcome matching no row is skipped
entirely, otherwise a batch row is staged and, if the outcome's status is
0, a message per covered file is staged for forwarding. -/
def stageTransfers (store : List FileRec) (items : List TransferItem) :
    List BatchRec × List FileMsg :=
  items.foldl
    (fun acc item =>
      let records := queryRecords store item
      if records = [] then acc
      else
        (acc.1 ++ [mkBatch item records],
         if item.status = 0 then acc.2 ++ msgsOf item else acc.2))
    ([], [])

/-- One chunk of `Manager._add_transfers`: stage batches and messages,
then commit.  Returns the committed batch rows and the messages put on
the output queue; a failed commit produces neither. -/
def addTransfersChunk (store : List FileRec) (commitOk : Bool)
    (items : List TransferItem) : List BatchRec × List FileMsg :=
  let s := stageTransfers store items
  if commitOk then s else ([], [])

/-- The per-item body of `_update_files`:
`query(File).filter(relpath == tail, filename == name).first()` followed
by `rec.held_on = datetime.fromtimestamp(item.timestamp)` — the first
matching row (if any) gets its `held_on` set, everything else is left
alone. -/
def setHeldOn (t : Int) (tail name : String) :
    List FileRec → List FileRec
  | [] => []
  | f :: fs =>
      if f.relpath = tail ∧ f.filename = name then
        { f with held_on := some t } :: fs
      else
        f :: setHeldOn t tail name fs

/-- One chunk of `Manager._update_files`: apply the per-item update for
every item in chunk order, then commit; a failed commit rolls the chunk's
updates back.  This transaction has no output queue. -/
def updateFilesChunk (store : List FileRec) (commitOk : Bool)
    (items : List FileItem) : List FileRec :=
  let store' := items.foldl
    (fun st item => setHeldOn item.timestamp item.tail item.name st) store
  if commitOk then store' else store

/-! ## Manager construction (wiring of Porter and Wiper) -/

/-- Modelled from the spec: the `Defaults` dataclass
(`defaults.py` is not part of the embedded sources).  Per spec §6 the
`general` section is `{num_threads, pause, chunk_size, timeout, expiration_time}`
with defaults applied for missing keys; the concrete default values are
irrelevant here, so the defaults are carried abstractly as a value of
this settings type. -/
structure GeneralSettings where
  num_threads : Nat
  pause : Nat
  chunk_size : Nat
  timeout : Option Nat
  expiration_time : Nat
deriving Repr

/-- An optional `general` configuration section: `none` for an absent
key, `some v` for a present key with value `v` (for `timeout`, the value
itself may be `None`). -/
structure GeneralConfig where
  num_threads : Option Nat
  pause : Option Nat
  chunk_size : Option Nat
  timeout : Option (Option Nat)
  expiration_time : Option Nat
deriving Repr

/-- `settings = asdict(Defaults()); settings.update(config)`: every key
present in the configuration dict overrides the default. -/
def applySettings (d : GeneralSettings) (c : Option GeneralConfig) :
    GeneralSettings :=
  match c with
  | none => d
  | some c =>
      { num_threads := c.num_threads.getD d.num_threads
        pause := c.pause.getD d.pause
        chunk_size := c.chunk_size.getD d.chunk_size
        timeout := c.timeout.getD d.timeout
        expiration_time := c.expiration_time.getD d.expiration_time }

/-- The `endpoint` configuration section with its four required keys. -/
structure EndpointConfig where
  user : String
  host : String
  buffer : String
  staging : String
deriving Repr

/-- `Porter.__init__(config, ..., chunk_size=1, timeout=None)`. -/
def porterInit (config : EndpointConfig) (chunk_size : Nat := 1)
    (timeout : Option Nat := none) : Porter :=
  ⟨config.user, config.host, config.buffer, config.staging,
   chunk_size, timeout⟩

/-- The part of `Manager.__init__` that wires up the transfer tasks:
`self.porter = Porter(endpoint, ..., chunk_size=settings["chunk_size"],
timeout=settings["timeout"])` and `self.wiper = Wiper(endpoint)` — the
Wiper is constructed without a timeout argument. -/
def managerInit (defaults : GeneralSettings)
    (general : Option GeneralConfig) (endpoint : EndpointConfig) :
    Porter × Wiper :=
  let settings := applySettings defaults general
  (porterInit endpoint settings.chunk_size settings.timeout,
   wiperInit endpoint.user endpoint.host endpoint.staging)

/-! ## Theorems -/

/-- C2: for every command's child behaviour and every optional timeout,
`execute` returns a `(status, stdout, stderr)` triple (it is a total
function, so it raises nothing): a child exiting 0 within the deadline
yields status 0; a child exiting non-zero within the deadline yields the
distinguished remote-I/O-error status `eremoteio`; a child exceeding the
timeout yields the distinguished timed-out status `ETIME`; and in every
case the returned output components are the child's captured stdout and
stderr. -/
theorem execute_status_mapping (child : ChildBehavior)
    (timeout : Option Nat) :
    (timedOut child timeout = false → child.exitCode = 0 →
      execute child timeout = (0, child.stdout, child.stderr))
    ∧ (timedOut child timeout = false → child.exitCode ≠ 0 →
      execute child timeout = (eremoteio, child.stdout, child.stderr))
    ∧ (timedOut child timeout = true →
      execute child timeout = (ETIME, child.stdout, child.stderr))
    ∧ (execute child timeout).2 = (child.stdout, child.stderr) := by
  refine ⟨?_, ?_, ?_, ?_⟩
  · intro h h0
    simp [execute, h, h0]
  · intro h h0
    simp [execute, h, h0]
  · intro h
    simp [execute, h]
  · by_cases h : timedOut child timeout <;>
      by_cases h0 : child.exitCode = 0 <;>
      simp [execute, h, h0]

/-- Witness for C2: the three status cases at concrete child behaviours
(exit 0, exit 2, and a 5-second child against a 2-second timeout). -/
theorem execute_status_mapping_witness :
    execute ⟨0, 1, "out", "err"⟩ none = (0, "out", "err")
    ∧ execute ⟨2, 1, "out", "err"⟩ none = (eremoteio, "out", "err")
    ∧ execute ⟨0, 5, "out", "err"⟩ (some 2) = (ETIME, "out", "err") :=
  ⟨(execute_status_mapping ⟨0, 1, "out", "err"⟩ none).1 rfl rfl,
   (execute_status_mapping ⟨2, 1, "out", "err"⟩ none).2.1 rfl (by decide),
   (execute_status_mapping ⟨0, 5, "out", "err"⟩ (some 2)).2.2.1 rfl⟩

/-- C9: for every defaults record, every optional `general` configuration
section (in particular one that configures a per-command timeout) and
every endpoint section, the Manager constructs its Wiper without a
timeout argument, so the staging-sweep command is executed with timeout
`none`, while the configured timeout from the settings is what the
Porter receives. -/
theorem manager_wiper_has_no_timeout (defaults : GeneralSettings)
    (general : Option GeneralConfig) (endpoint : EndpointConfig) :
    (wiperRunCall (managerInit defaults general endpoint).2).2 = none
    ∧ (managerInit defaults general endpoint).1.time
      = (applySettings defaults general).timeout := by
  simp [managerInit, wiperRunCall, wiperInit, porterInit]

/-- The store and outcome used to exhibit the `_add_transfers` column
mix-up: the outcome's six timing fields are pairwise distinct, and the
store holds one matching `File` row. -/
def batchBugItem : TransferItem :=
  { pre_start := 11
    pre_duration := 13
    trans_start := 20
    trans_duration := 21
    post_start := 30
    post_duration := 31
    size := 5
    rate := 2
    status := 0
    error := ""
    files := [("h", "p", "n")] }

/-- A one-row store matching `batchBugItem`'s single file. -/
def batchBugStore : List FileRec :=
  [{ relpath := "p"
     filename := "n"
     checksum := "c"
     size_bytes := 5
     created_on := 0
     held_on := none }]

/-- C7: evaluating the code at the failing input.  `_add_transfers`
builds the `Batch` row with `trans_start_time`, `trans_duration`,
`post_start_time` and `post_duration` all taken from the outcome's
`pre_start` / `pre_duration` fields, so for an outcome whose transfer
phase started at 20 (duration 21) and whose post phase started at 30
(duration 31), the persisted columns read 11 and 13 — the pre-phase
values — while the pre/size/rate/status/error columns are filled
correctly. -/
theorem addTransfers_misfills_trans_post_columns :
    (mkBatch batchBugItem (queryRecords batchBugStore batchBugItem)).trans_start_time = 11
    ∧ batchBugItem.trans_start = 20
    ∧ (mkBatch batchBugItem (queryRecords batchBugStore batchBugItem)).trans_duration = 13
    ∧ batchBugItem.trans_duration = 21
    ∧ (mkBatch batchBugItem (queryRecords batchBugStore batchBugItem)).post_start_time = 11
    ∧ batchBugItem.post_start = 30
    ∧ (mkBatch batchBugItem (queryRecords batchBugStore batchBugItem)).post_duration = 13
    ∧ batchBugItem.post_duration = 31
    ∧ (mkBatch batchBugItem (queryRecords batchBugStore batchBugItem)).pre_start_time = 11
    ∧ (mkBatch batchBugItem (queryRecords batchBugStore batchBugItem)).files = batchBugStore := by
  decide

/-- C6: for every location group, a non-zero status from the remote
directory-creation command means no file of the group reaches the output
queue; directory creation succeeding but the batched copy failing
likewise drops the whole group; and when both succeed, a file of the
group is enqueued exactly when its own move command returns 0 — a
per-file move failure omits exactly that file. -/
theorem porter_group_failure_handling (exec : String → Int) (P : Porter)
    (loc : Location) (files : List String) :
    (exec (mkdirCmd P loc) ≠ 0 → (processGroup exec P loc files).2 = [])
    ∧ (exec (mkdirCmd P loc) = 0 → exec (scpCmd P loc files) ≠ 0 →
      (processGroup exec P loc files).2 = [])
    ∧ (exec (mkdirCmd P loc) = 0 → exec (scpCmd P loc files) = 0 →
      ∀ fn, (⟨loc.head, loc.tail, fn⟩ : FileReq) ∈ (processGroup exec P loc files).2
        ↔ (fn ∈ files ∧ exec (mvCmd P loc fn) = 0)) := by
  refine ⟨?_, ?_, ?_⟩
  · intro h
    simp [processGroup, h]
  · intro h h2
    simp [processGroup, h, h2]
  · intro h h2 fn
    simp only [processGroup, h, h2, ne_eq, not_true_eq_false, if_false,
      List.mem_filterMap]
    constructor
    · rintro ⟨fn', hmem, hf⟩
      by_cases hs : exec (mvCmd P loc fn') = 0
      · rw [if_pos hs] at hf
        obtain ⟨rfl⟩ : fn' = fn := by
          cases Option.some.inj hf
          rfl
        exact ⟨hmem, hs⟩
      · rw [if_neg hs] at hf
        cases hf
    · rintro ⟨hmem, hs⟩
      exact ⟨fn, hmem, by rw [if_pos hs]⟩

/-- A concrete Porter for the witnesses below. -/
def wPorter : Porter :=
  ⟨"u", "h", "/b", "/s", 1, none⟩

/-- A concrete location group for the witnesses below. -/
def wLoc : Location :=
  ⟨"/d", "g"⟩

/-- An environment in which every command fails. -/
def execAllFail : String → Int :=
  fun _ => 1

/-- An environment in which every command succeeds. -/
def execAllZero : String → Int :=
  fun _ => 0

/-- An environment in which only the batched copy for `wLoc` fails. -/
def execScpFail : String → Int :=
  fun c => if c = scpCmd wPorter wLoc ["a", "b"] then 1 else 0

/-- An environment in which only the move of file `a` in `wLoc` fails. -/
def execMvAFail : String → Int :=
  fun c => if c = mvCmd wPorter wLoc "a" then 1 else 0

/-- Witness for C6: with both files `a` and `b` in the group, a failing
directory creation or batched copy yields no output at all, and a failing
move of `a` alone keeps `a` off the output queue while `b` is enqueued. -/
theorem porter_group_failure_handling_witness :
    (processGroup execAllFail wPorter wLoc ["a", "b"]).2 = []
    ∧ (processGroup execScpFail wPorter wLoc ["a", "b"]).2 = []
    ∧ (⟨"/d", "g", "b"⟩ : FileReq) ∈ (processGroup execMvAFail wPorter wLoc ["a", "b"]).2
    ∧ ¬ (⟨"/d", "g", "a"⟩ : FileReq) ∈ (processGroup execMvAFail wPorter wLoc ["a", "b"]).2 := by
  refine ⟨?_, ?_, ?_, ?_⟩
  · exact (porter_group_failure_handling execAllFail wPorter wLoc ["a", "b"]).1 (by decide)
  · exact (porter_group_failure_handling execScpFail wPorter wLoc ["a", "b"]).2.1
      (by decide) (by decide)
  · exact ((porter_group_failure_handling execMvAFail wPorter wLoc ["a", "b"]).2.2
      (by decide) (by decide) "b").mpr ⟨by decide, by decide⟩
  · intro hmem
    have h := ((porter_group_failure_handling execMvAFail wPorter wLoc ["a", "b"]).2.2
      (by decide) (by decide) "a").mp hmem
    exact absurd h.2 (by decide)

/-- The Porter of C1: endpoint identity `user@host`, buffer `/buf`,
staging `/stage`. -/
def c1Porter : Porter :=
  ⟨"user", "host", "/buf", "/stage", 1, none⟩

/-- C1: a Porter configured with buffer `/buf` and staging `/stage`
processing the single request `(srcRoot, "groupA", "data.fits")` in an
environment where every command returns status 0 issues exactly three
commands — the directory creation targeting `/buf/groupA` and
`/stage/groupA`, the batched copy targeting `user@host:/stage/groupA`,
and the publish `ssh user@host mv /stage/groupA/data.fits
/buf/groupA/data.fits` — and puts exactly the item
`(srcRoot, "groupA", "data.fits")` on the transferred-output queue. -/
theorem porter_end_to_end (srcRoot : String) (exec : String → Int)
    (h : ∀ c, exec c = 0) :
    porterRun exec c1Porter [⟨srcRoot, "groupA", "data.fits"⟩]
      = (["ssh user@host mkdir -p /buf/groupA /stage/groupA",
          "scp -BCpq " ++ osPathJoin (osPathJoin srcRoot "groupA") "data.fits"
            ++ " user@host:/stage/groupA",
          "ssh user@host mv /stage/groupA/data.fits /buf/groupA/data.fits"],
         [⟨srcRoot, "groupA", "data.fits"⟩]) := by
  have hmk : mkdirCmd c1Porter ⟨srcRoot, "groupA"⟩
      = "ssh user@host mkdir -p /buf/groupA /stage/groupA" := rfl
  have hmv : mvCmd c1Porter ⟨srcRoot, "groupA"⟩ "data.fits"
      = "ssh user@host mv /stage/groupA/data.fits /buf/groupA/data.fits" := rfl
  have hj : osPathJoin "/stage" "groupA" = "/stage/groupA" := rfl
  have hscp : scpCmd c1Porter ⟨srcRoot, "groupA"⟩ ["data.fits"]
      = "scp -BCpq " ++ osPathJoin (osPathJoin srcRoot "groupA") "data.fits"
        ++ " user@host:/stage/groupA" := by
    show "scp -BCpq " ++ osPathJoin (osPathJoin srcRoot "groupA") "data.fits"
        ++ " " ++ "user" ++ "@" ++ "host" ++ ":" ++ osPathJoin "/stage" "groupA" = _
    rw [hj]
    simp only [String.append_assoc]
    congr 1
  rw [porterRun]
  simp only [List.take, List.drop, porterRun, porterChunk, groupChunk,
    List.foldl, addToGroups, locOf, processGroup, hmk, hmv, hscp, h,
    List.map, List.filterMap, ne_eq, not_true_eq_false, if_false, if_true,
    not_false_eq_true, List.append_nil, List.nil_append,
    List.cons_append, List.singleton_append]

/-- Witness for C1: the end-to-end run at `srcRoot = "/data"` in the
all-commands-succeed environment. -/
theorem porter_end_to_end_witness :
    porterRun execAllZero c1Porter [⟨"/data", "groupA", "data.fits"⟩]
      = (["ssh user@host mkdir -p /buf/groupA /stage/groupA",
          "scp -BCpq /data/groupA/data.fits user@host:/stage/groupA",
          "ssh user@host mv /stage/groupA/data.fits /buf/groupA/data.fits"],
         [⟨"/data", "groupA", "data.fits"⟩]) := by
  have := porter_end_to_end "/data" execAllZero (fun _ => rfl)
  rw [this]
  decide

/-! ### Grouping characterization (C5) -/

/-- Append a location to an accumulator unless it is already present:
one step of collecting keys in first-seen order. -/
def insertIfNew (acc : List Location) (l : Location) : List Location :=
  if l ∈ acc then acc else acc ++ [l]

/-- The distinct locations of a list, each at its first occurrence. -/
def firstSeen (xs : List Location) : List Location :=
  xs.foldl insertIfNew []

/-- The declarative description of the Porter's grouping: one entry per
distinct location in first-seen order, carrying the files of every
request at that location, in request order. -/
def groupsOf (chunk : List FileReq) : List (Location × List String) :=
  (firstSeen (chunk.map locOf)).map
    (fun l => (l, (chunk.filter (fun r => decide (locOf r = l))).map FileReq.file))

lemma mem_foldl_insertIfNew (xs : List Location) :
    ∀ acc y, y ∈ xs.foldl insertIfNew acc ↔ y ∈ acc ∨ y ∈ xs := by
  induction xs with
  | nil => simp
  | cons x xs ih =>
      intro acc y
      rw [List.foldl_cons, ih]
      by_cases h : x ∈ acc
      · simp only [insertIfNew, if_pos h, List.mem_cons]
        constructor
        · rintro (h1 | h1)
          · exact Or.inl h1
          · exact Or.inr (Or.inr h1)
        · rintro (h1 | h1 | h1)
          · exact Or.inl h1
          · exact Or.inl (h1 ▸ h)
          · exact Or.inr h1
      · simp only [insertIfNew, if_neg h, List.mem_append,
          List.mem_singleton, List.mem_cons]
        tauto

lemma mem_firstSeen (xs : List Location) (y : Location) :
    y ∈ firstSeen xs ↔ y ∈ xs := by
  rw [firstSeen, mem_foldl_insertIfNew]
  simp

lemma nodup_foldl_insertIfNew (xs : List Location) :
    ∀ acc, acc.Nodup → (xs.foldl insertIfNew acc).Nodup := by
  induction xs with
  | nil => exact fun acc h => h
  | cons x xs ih =>
      intro acc h
      rw [List.foldl_cons]
      apply ih
      by_cases hx : x ∈ acc
      · simpa [insertIfNew, if_pos hx]
      · simp [insertIfNew, if_neg hx, List.nodup_append, h, hx]

lemma nodup_firstSeen (xs : List Location) : (firstSeen xs).Nodup :=
  nodup_foldl_insertIfNew xs [] List.nodup_nil

lemma firstSeen_snoc (xs : List Location) (y : Location) :
    firstSeen (xs ++ [y]) = insertIfNew (firstSeen xs) y := by
  simp [firstSeen, List.foldl_append]

lemma insertIfNew_cons (k : Location) (ks : List Location) (loc : Location)
    (h : k ≠ loc) : insertIfNew (k :: ks) loc = k :: insertIfNew ks loc := by
  by_cases hm : loc ∈ ks
  · simp [insertIfNew, List.mem_cons, hm]
  · have hlk : loc ≠ k := Ne.symm h
    have : ¬ loc ∈ k :: ks := by
      simp [List.mem_cons, hm, hlk]
    simp [insertIfNew, this, hm]

lemma addToGroups_map (F : Location → List String) (loc : Location)
    (f : String) :
    ∀ ks : List Location, ks.Nodup → (loc ∉ ks → F loc = []) →
      addToGroups (ks.map (fun l => (l, F l))) loc f
        = (insertIfNew ks loc).map
            (fun l => (l, F l ++ if loc = l then [f] else [])) := by
  intro ks
  induction ks with
  | nil =>
      intro _ h0
      simp [addToGroups, insertIfNew, h0 (List.not_mem_nil loc)]
  | cons k ks ih =>
      intro hnd h0
      by_cases hk : k = loc
      · subst hk
        have hkn : k ∉ ks := (List.nodup_cons.mp hnd).1
        have : insertIfNew (k :: ks) k = k :: ks := by
          simp [insertIfNew]
        rw [this]
        simp only [List.map_cons, addToGroups, if_pos rfl]
        have : ks.map (fun l => (l, F l ++ if k = l then [f] else []))
            = ks.map (fun l => (l, F l)) := by
          apply List.map_congr_left
          intro a ha
          have : k ≠ a := fun e => hkn (e ▸ ha)
          simp [this]
        simp [this]
      · rw [insertIfNew_cons k ks loc hk]
        simp only [List.map_cons, addToGroups, if_neg hk]
        have h0' : loc ∉ ks → F loc = [] := by
          intro hm
          exact h0 (by simp [List.mem_cons, hm, Ne.symm hk])
        rw [ih (List.nodup_cons.mp hnd).2 h0']
        have : (loc = k) = False := eq_false (Ne.symm hk)
        simp [this]

lemma addToGroups_groupsOf (chunk : List FileReq) (r : FileReq) :
    addToGroups (groupsOf chunk) (locOf r) r.file = groupsOf (chunk ++ [r]) := by
  unfold groupsOf
  rw [List.map_append, List.map_singleton, firstSeen_snoc]
  rw [addToGroups_map _ _ _ _ (nodup_firstSeen _)]
  · apply List.map_congr_left
    intro l _
    have : (chunk ++ [r]).filter (fun x => decide (locOf x = l))
        = chunk.filter (fun x => decide (locOf x = l))
          ++ (if locOf r = l then [r] else []) := by
      rw [List.filter_append]
      by_cases h : locOf r = l <;> simp [List.filter, h]
    rw [this, List.map_append]
    by_cases h : locOf r = l <;> simp [h]
  · intro hm
    rw [mem_firstSeen] at hm
    have : chunk.filter (fun x => decide (locOf x = locOf r)) = [] := by
      rw [List.filter_eq_nil_iff]
      intro a ha hp
      exact hm (by
        rw [List.mem_map]
        exact ⟨a, ha, of_decide_eq_true hp⟩)
    simp [this]

lemma groupChunk_eq_foldl (rest : List FileReq) :
    ∀ chunk, rest.foldl (fun gs r => addToGroups gs (locOf r) r.file) (groupsOf chunk)
      = groupsOf (chunk ++ rest) := by
  induction rest with
  | nil => simp
  | cons r rest ih =>
      intro chunk
      rw [List.foldl_cons, addToGroups_groupsOf, ih]
      simp

/-- The Porter's grouping computes exactly the declarative grouping. -/
lemma groupChunk_eq (chunk : List FileReq) : groupChunk chunk = groupsOf chunk := by
  have h0 : groupsOf [] = [] := rfl
  have := groupChunk_eq_foldl chunk []
  rw [h0] at this
  simpa [groupChunk] using this

/-- C5: for every chunk, the Porter's grouping by `(sourceRoot,
relativeDir)` is an exact partition in first-seen key order: the group
list is precisely one entry per distinct location, in the order locations
first occur in the chunk, each carrying exactly the files of the chunk's
requests at that location (so no group holds a request of a different
location, and every request is preserved with its multiplicity); the
group keys are pairwise distinct, and every request's location is among
them — hence each request belongs to exactly one group. -/
theorem porter_grouping_partition (chunk : List FileReq) :
    groupChunk chunk
      = (firstSeen (chunk.map locOf)).map
          (fun l => (l, (chunk.filter (fun r => decide (locOf r = l))).map FileReq.file))
    ∧ ((groupChunk chunk).map Prod.fst).Nodup
    ∧ (∀ r ∈ chunk, locOf r ∈ (groupChunk chunk).map Prod.fst) := by
  refine ⟨groupChunk_eq chunk, ?_, ?_⟩
  · rw [groupChunk_eq]
    unfold groupsOf
    rw [List.map_map]
    have : (Prod.fst ∘ fun l =>
        (l, (chunk.filter (fun r => decide (locOf r = l))).map FileReq.file))
        = id := rfl
    rw [this, List.map_id]
    exact nodup_firstSeen _
  · intro r hr
    rw [groupChunk_eq]
    unfold groupsOf
    rw [List.map_map]
    have : (Prod.fst ∘ fun l =>
        (l, (chunk.filter (fun x => decide (locOf x = l))).map FileReq.file))
        = id := rfl
    rw [this, List.map_id, mem_firstSeen, List.mem_map]
    exact ⟨r, hr, rfl⟩

/-- Witness for C5: a four-request chunk over two interleaved locations
is grouped into the two location groups in first-seen order, with every
file in its own location's group. -/
theorem porter_grouping_partition_witness :
    groupChunk [⟨"/d", "g1", "a"⟩, ⟨"/d", "g2", "b"⟩, ⟨"/d", "g1", "c"⟩, ⟨"/e", "g1", "d"⟩]
      = [(⟨"/d", "g1"⟩, ["a", "c"]), (⟨"/d", "g2"⟩, ["b"]), (⟨"/e", "g1"⟩, ["d"])]
    ∧ (⟨"/d", "g1"⟩ : Location)
        ∈ (groupChunk [⟨"/d", "g1", "a"⟩, ⟨"/d", "g2", "b"⟩, ⟨"/d", "g1", "c"⟩, ⟨"/e", "g1", "d"⟩]).map Prod.fst := by
  constructor
  · rw [(porter_grouping_partition _).1]
    decide
  · exact (porter_grouping_partition _).2.2 ⟨"/d", "g1", "a"⟩ (by decide)

/-! ### Per-outcome contributions of `_add_transfers` (C8, C3) -/

/-- The batch row one outcome contributes: none when its lookup matches
no record, otherwise the row built by `mkBatch` over the matches. -/
def outcomeBatch (store : List FileRec) (item : TransferItem) :
    Option BatchRec :=
  if queryRecords store item = [] then none
  else some (mkBatch item (queryRecords store item))

/-- The forwarded messages one outcome contributes: none when its lookup
matches no record or its status is non-zero, otherwise one message per
covered file. -/
def outcomeMsgs (store : List FileRec) (item : TransferItem) :
    List FileMsg :=
  if queryRecords store item = [] then []
  else if item.status = 0 then msgsOf item else []

lemma stageTransfers_go (store : List FileRec) :
    ∀ (items : List TransferItem) (acc : List BatchRec × List FileMsg),
      items.foldl
        (fun acc item =>
          let records := queryRecords store item
          if records = [] then acc
          else
            (acc.1 ++ [mkBatch item records],
             if item.status = 0 then acc.2 ++ msgsOf item else acc.2))
        acc
      = (acc.1 ++ items.filterMap (outcomeBatch store),
         acc.2 ++ (items.map (outcomeMsgs store)).flatten) := by
  intro items
  induction items with
  | nil => intro acc; simp
  | cons item items ih =>
      intro acc
      rw [List.foldl_cons, ih]
      by_cases hq : queryRecords store item = []
      · simp [outcomeBatch, outcomeMsgs, hq]
      · by_cases hs : item.status = 0 <;>
          simp [outcomeBatch, outcomeMsgs, hq, hs, List.append_assoc]

/-- The imperative staging loop equals the per-outcome description. -/
lemma stageTransfers_eq (store : List FileRec) (items : List TransferItem) :
    stageTransfers store items
      = (items.filterMap (outcomeBatch store),
         (items.map (outcomeMsgs store)).flatten) := by
  have h := stageTransfers_go store items ([], [])
  simpa [stageTransfers] using h

/-- C8: when a chunk's commit succeeds, `_add_transfers` commits exactly
one batch row per outcome that matched at least one record, and forwards
to the processed queue exactly the per-outcome contributions, in order;
an outcome with at least one match has its files forwarded precisely when
its status equals 0, and an outcome matching zero records contributes no
batch row and no forwarded item. -/
theorem addTransfers_status_gating (store : List FileRec)
    (items : List TransferItem) :
    addTransfersChunk store true items
      = (items.filterMap (outcomeBatch store),
         (items.map (outcomeMsgs store)).flatten)
    ∧ (∀ item : TransferItem, queryRecords store item ≠ [] →
        outcomeMsgs store item = (if item.status = 0 then msgsOf item else [])
        ∧ outcomeBatch store item
          = some (mkBatch item (queryRecords store item)))
    ∧ (∀ item : TransferItem, queryRecords store item = [] →
        outcomeBatch store item = none ∧ outcomeMsgs store item = []) := by
  refine ⟨?_, ?_, ?_⟩
  · simp [addTransfersChunk, stageTransfers_eq]
  · intro item h
    simp [outcomeBatch, outcomeMsgs, h]
  · intro item h
    simp [outcomeBatch, outcomeMsgs, h]

/-- An outcome matching no record of `batchBugStore`. -/
def noMatchItem : TransferItem :=
  { batchBugItem with files := [("h", "x", "y")] }

/-- Witness for C8: over the one-row store, a status-0 outcome covering
the recorded file yields its batch row and one forwarded message, while
the no-match outcome in the same chunk is discarded entirely. -/
theorem addTransfers_status_gating_witness :
    addTransfersChunk batchBugStore true [batchBugItem, noMatchItem]
      = ([mkBatch batchBugItem batchBugStore], [⟨"h", "p", "n"⟩])
    ∧ outcomeMsgs batchBugStore noMatchItem = [] := by
  constructor
  · rw [(addTransfers_status_gating batchBugStore [batchBugItem, noMatchItem]).1]
    decide
  · exact ((addTransfers_status_gating batchBugStore [batchBugItem, noMatchItem]).2.2
      noMatchItem (by decide)).2

/-- C3 (amended): for each bookkeeping transaction and chunk, a failed
commit forwards nothing downstream (and, for `_update_files`, leaves the
store unchanged); a successful commit makes `_add_files` forward every
item of the chunk exactly once (the forwarded list is the chunk itself)
and makes `_add_transfers` forward exactly the per-outcome contributions
— one message per covered file of each matched status-0 outcome —
`_update_files` having no downstream queue at all. -/
theorem bookkeeping_commit_atomicity (cksum : String → String)
    (store : List FileRec) (items uitems : List FileItem)
    (titems : List TransferItem) :
    (addFilesChunk cksum store false items).2 = []
    ∧ (addFilesChunk cksum store true items).2 = items
    ∧ (addTransfersChunk store false titems).2 = []
    ∧ (addTransfersChunk store true titems).2
      = (titems.map (outcomeMsgs store)).flatten
    ∧ updateFilesChunk store false uitems = store := by
  refine ⟨?_, ?_, ?_, ?_, ?_⟩
  · simp [addFilesChunk]
  · simp [addFilesChunk]
  · simp [addTransfersChunk]
  · simp [addTransfersChunk, stageTransfers_eq]
  · simp [updateFilesChunk]

/-- A matched outcome whose status is non-zero. -/
def failedStatusItem : TransferItem :=
  { batchBugItem with status := 1 }

/-- Counterexample to C3 as stated: a chunk of `_add_transfers` holding
one outcome (non-zero status, matching one record) commits successfully,
yet nothing at all is put on the downstream queue — the chunk's item is
not forwarded even once. -/
theorem addTransfers_chunk_item_not_forwarded :
    (addTransfersChunk batchBugStore true [failedStatusItem]).2 = []
    ∧ [failedStatusItem] ≠ [] := by
  exact ⟨by decide, by decide⟩

/-! ### De-duplication in `_add_files` (C4) -/

lemma stageFiles_go (cksum : String → String) (store : List FileRec) :
    ∀ (items : List FileItem) (acc : List FileRec),
      items.foldl
        (fun acc item =>
          if fileExists cksum store item then acc
          else acc ++ [mkFileRec cksum item]) acc
      = acc ++ (items.filter
          (fun item => ! fileExists cksum store item)).map (mkFileRec cksum) := by
  intro items
  induction items with
  | nil => intro acc; simp
  | cons item items ih =>
      intro acc
      rw [List.foldl_cons, ih]
      by_cases h : fileExists cksum store item <;>
        simp [h, List.append_assoc]

/-- The staging loop of `_add_files` stages exactly the not-yet-recorded
items of the chunk, in order. -/
lemma stageFiles_eq (cksum : String → String) (store : List FileRec)
    (items : List FileItem) :
    stageFiles cksum store items
      = (items.filter
          (fun item => ! fileExists cksum store item)).map (mkFileRec cksum) := by
  have h := stageFiles_go cksum store items []
  simpa [stageFiles] using h

lemma recKey_mkFileRec (cksum : String → String) (item : FileItem) :
    recKey (mkFileRec cksum item) = itemKey cksum item := rfl

lemma fileExists_congr (cksum : String → String) (store : List FileRec)
    {a b : FileItem} (h : itemKey cksum a = itemKey cksum b) :
    fileExists cksum store a = fileExists cksum store b := by
  simp [fileExists, h]

lemma fileExists_false (cksum : String → String) (store : List FileRec)
    (item : FileItem) (h : fileExists cksum store item = false) :
    ∀ f ∈ store, recKey f ≠ itemKey cksum item := by
  intro f hf he
  have hsome : (store.find?
      (fun f => decide (recKey f = itemKey cksum item))).isSome = true :=
    List.find?_isSome.mpr ⟨f, hf, by simp [he]⟩
  rw [fileExists] at h
  rw [h] at hsome
  cases hsome

/-- C4 (amended): over a store whose rows have pairwise-distinct
`(relativePath, filename, checksum)` keys, and for a chunk whose items
also carry pairwise-distinct keys, `_add_files` preserves the uniqueness
invariant; and — unconditionally within those hypotheses — an item whose
key is already recorded stages no new row, so the rows carrying that key
after the run are exactly the ones before. -/
theorem addFiles_dedup (cksum : String → String) (store : List FileRec)
    (commitOk : Bool) (items : List FileItem)
    (h1 : (store.map recKey).Nodup)
    (h2 : (items.map (itemKey cksum)).Nodup) :
    ((addFilesChunk cksum store commitOk items).1.map recKey).Nodup
    ∧ ∀ item ∈ items, fileExists cksum store item = true →
        (addFilesChunk cksum store commitOk items).1.filter
            (fun f => decide (recKey f = itemKey cksum item))
          = store.filter (fun f => decide (recKey f = itemKey cksum item)) := by
  cases commitOk with
  | false =>
      constructor
      · simpa [addFilesChunk] using h1
      · intro item _ _
        simp [addFilesChunk]
  | true =>
      have hkeys : (stageFiles cksum store items).map recKey
          = (items.filter
              (fun i => ! fileExists cksum store i)).map (itemKey cksum) := by
        rw [stageFiles_eq, List.map_map]
        rfl
      constructor
      · simp only [addFilesChunk, if_pos, List.map_append]
        rw [List.nodup_append]
        refine ⟨h1, ?_, ?_⟩
        · rw [hkeys]
          exact h2.sublist
            ((List.filter_sublist items).map (itemKey cksum))
        · intro k hk1 hk2
          rw [hkeys, List.mem_map] at hk2
          obtain ⟨i, hi, rfl⟩ := hk2
          rw [List.mem_filter] at hi
          have hfalse : fileExists cksum store i = false := by
            simpa using hi.2
          rw [List.mem_map] at hk1
          obtain ⟨f, hf, hkf⟩ := hk1
          exact fileExists_false cksum store i hfalse f hf hkf
      · intro item hitem hex
        simp only [addFilesChunk, if_pos]
        rw [List.filter_append]
        have hnil : (stageFiles cksum store items).filter
            (fun f => decide (recKey f = itemKey cksum item)) = [] := by
          rw [List.filter_eq_nil_iff]
          intro r hr hpred
          rw [stageFiles_eq, List.mem_map] at hr
          obtain ⟨i, hi, rfl⟩ := hr
          rw [List.mem_filter] at hi
          have hfalse : fileExists cksum store i = false := by
            simpa using hi.2
          have hkey : itemKey cksum i = itemKey cksum item := by
            have h := of_decide_eq_true hpred
            rwa [recKey_mkFileRec] at h
          rw [fileExists_congr cksum store hkey, hex] at hfalse
          cases hfalse
        rw [hnil, List.append_nil]

/-- An item rediscovered by every chunk below. -/
def dupItem : FileItem :=
  ⟨"/d", "g", "a", 1, 0⟩

/-- A checksum oracle assigning every path the digest `"k"`. -/
def constCksum : String → String :=
  fun _ => "k"

/-- A one-row store already holding `dupItem`'s key. -/
def w4Store : List FileRec :=
  [⟨"g", "a", "k", 1, 0, none⟩]

/-- Counterexample to C4 as stated: starting from an empty store (which
trivially has no duplicate keys), a single `_add_files` chunk holding the
same discovered item twice commits two rows with identical
`(relativePath, filename, checksum)` — the duplicate check only consults
committed rows, not rows staged earlier in the same chunk. -/
theorem addFiles_intra_chunk_duplicate :
    (([] : List FileRec).map recKey).Nodup
    ∧ ¬ ((addFilesChunk constCksum [] true [dupItem, dupItem]).1.map recKey).Nodup := by
  exact ⟨by decide, by decide⟩

/-- Witness for C4: a store already holding `dupItem`'s key and the chunk
`[dupItem]` — the run keeps keys unique and stages nothing new for the
rediscovered item. -/
theorem addFiles_dedup_witness :
    ((addFilesChunk constCksum w4Store true [dupItem]).1.map recKey).Nodup
    ∧ (addFilesChunk constCksum w4Store true [dupItem]).1.filter
        (fun f => decide (recKey f = itemKey constCksum dupItem))
      = w4Store.filter
          (fun f => decide (recKey f = itemKey constCksum dupItem)) := by
  have h := addFiles_dedup constCksum w4Store true [dupItem]
    (by decide) (by decide)
  exact ⟨h.1, h.2 dupItem (by decide) (by decide)⟩

/-! ### `_update_files` per-item behaviour (C10) -/

/-- C10: processing one completed item, `_update_files` leaves a store
with no `(relativePath, filename)` match completely unchanged (and, being
a total function, raises nothing); on a store containing a match it
rewrites exactly the first matching row, replacing only its `held_on`
field with the item's timestamp — every earlier row, every later row and
every other field of the matched row are returned as they were.  The
third conjunct ties the per-item function to the chunk transaction. -/
theorem updateFiles_first_match_only (t : Int) (tl nm : String) :
    (∀ store : List FileRec,
      (∀ g ∈ store, ¬(g.relpath = tl ∧ g.filename = nm)) →
      setHeldOn t tl nm store = store)
    ∧ (∀ (pre : List FileRec) (f : FileRec) (post : List FileRec),
        (∀ g ∈ pre, ¬(g.relpath = tl ∧ g.filename = nm)) →
        f.relpath = tl → f.filename = nm →
        setHeldOn t tl nm (pre ++ f :: post)
          = pre ++ { f with held_on := some t } :: post)
    ∧ (∀ (store : List FileRec) (item : FileItem),
        updateFilesChunk store true [item]
          = setHeldOn item.timestamp item.tail item.name store) := by
  refine ⟨?_, ?_, ?_⟩
  · intro store
    induction store with
    | nil => intro _; rfl
    | cons g gs ih =>
        intro h
        have hg := h g (List.mem_cons_self g gs)
        simp only [setHeldOn, if_neg hg]
        rw [ih (fun x hx => h x (List.mem_cons_of_mem g hx))]
  · intro pre
    induction pre with
    | nil =>
        intro f post _ hf1 hf2
        simp [setHeldOn, hf1, hf2]
    | cons g pre ih =>
        intro f post h hf1 hf2
        have hg := h g (List.mem_cons_self g pre)
        simp only [List.cons_append, setHeldOn, if_neg hg]
        exact congrArg (List.cons g)
          (ih f post (fun x hx => h x (List.mem_cons_of_mem g hx)) hf1 hf2)
  · intro store item
    simp [updateFilesChunk]

/-- Witness for C10: a no-match store is unchanged, and in a store with
two matches only the first match's `held_on` is set while the earlier
non-matching row and the later matching row keep all their fields. -/
theorem updateFiles_first_match_only_witness :
    setHeldOn 7 "p" "n" [⟨"q", "n", "c", 1, 0, none⟩]
      = [⟨"q", "n", "c", 1, 0, none⟩]
    ∧ setHeldOn 7 "p" "n"
        [⟨"q", "n", "c", 1, 0, none⟩, ⟨"p", "n", "c", 1, 0, none⟩,
         ⟨"p", "n", "d", 2, 0, none⟩]
      = [⟨"q", "n", "c", 1, 0, none⟩, ⟨"p", "n", "c", 1, 0, some 7⟩,
         ⟨"p", "n", "d", 2, 0, none⟩] := by
  constructor
  · exact (updateFiles_first_match_only 7 "p" "n").1
      [⟨"q", "n", "c", 1, 0, none⟩] (by decide)
  · have h := (updateFiles_first_match_only 7 "p" "n").2.1
      [⟨"q", "n", "c", 1, 0, none⟩] ⟨"p", "n", "c", 1, 0, none⟩
      [⟨"p", "n", "d", 2, 0, none⟩] (by decide) rfl rfl
    exact h.trans (by decide)

end DbbBufferMngr
